import Mathlib

/-!
Verification development for the SchemaLens repository.

Shallow embedding of the core logic of the repository:
* `src/services/code_analysis_service.py` — code-reference scanner and unused-object scan
* `src/ui/erd_ui.py`                     — unused-table filter
* `src/services/database_service.py`     — per-schema metadata load
* `src/tabs/environment_compare.py`      — schema diff engine
* `src/services/erd_service.py`          — ERD graph builder

Python strings are modelled as Lean `String`, with the character-level
operations (lowercasing, splitting, trimming) re-implemented structurally over
`List Char` so that all definitions evaluate inside the kernel.  Lowercasing is
modelled for the ASCII range, which is the range exercised by the identifiers
and SQL keywords this code handles.  `pandas` data frames are modelled as lists
of typed row structures whose field names match the canonical column names
produced by the repository's own metadata queries (the source resolves those
canonical names dynamically with `next(col for col in df.columns if ...)`,
which on this repository's own query output always resolves to exactly these
fields).
-/

namespace SchemaLens

/-! ### Character and string primitives -/

/-- ASCII lowercasing of one character; models Python `str.lower()` on the
ASCII range. -/
def lowerChar (c : Char) : Char :=
  if 65 ≤ c.toNat && c.toNat ≤ 90 then Char.ofNat (c.toNat + 32) else c

/-- Models Python `s.lower()` (ASCII range). -/
def lowerStr (s : String) : String := String.mk (s.toList.map lowerChar)

/-- Python `\s` / `str.strip` whitespace characters (ASCII range). -/
def isWs (c : Char) : Bool :=
  c = ' ' || c = '\t' || c = '\n' || c = '\r' || c = '\x0b' || c = '\x0c'

/-- Python regex `\w` word character (ASCII range): letters, digits, underscore. -/
def isWordChar (c : Char) : Bool := c.isAlphanum || c = '_'

/-- Models Python `s.split(sep)` for a one-character separator: always returns
at least one (possibly empty) chunk. -/
def splitChar (sep : Char) : List Char → List (List Char)
  | [] => [[]]
  | c :: rest =>
    let r := splitChar sep rest
    if c = sep then [] :: r
    else
      match r with
      | g :: gs => (c :: g) :: gs
      | [] => [[c]]

/-- Models Python `s.split('.')[-1]` (the bare name, last dot-separated segment). -/
def lastSeg (s : String) : String :=
  String.mk ((splitChar '.' s.toList).getLastD [])

/-- Models Python `s[:n]`. -/
def strTake (s : String) (n : Nat) : String := String.mk (s.toList.take n)

/-- Models Python `s.strip()` (whitespace from both ends, ASCII range). -/
def pyStrip (s : String) : String :=
  String.mk (((s.toList.dropWhile isWs).reverse.dropWhile isWs).reverse)

/-- Boolean infix (substring) test on lists; `listIsInfix n h` models
Python `n in h` for strings once both are viewed as char lists. -/
def listIsInfix [BEq α] : List α → List α → Bool
  | n, [] => n.isEmpty
  | n, x :: t => n.isPrefixOf (x :: t) || listIsInfix n t

/-- Models the Python substring test `needle in hay`. -/
def strContains (needle hay : String) : Bool :=
  listIsInfix needle.toList hay.toList

/-- Models Python `file.endswith(ext)`. -/
def endswith (file ext : String) : Bool :=
  List.isSuffixOf ext.toList file.toList

/-- Number of positions at which `needle` occurs in `hay` (used to talk about
"distinct textual occurrences" of a name in file content). -/
def occCount (needle hay : String) : Nat :=
  ((List.range (hay.toList.length + 1)).filter
    (fun p => needle.toList.isPrefixOf (hay.toList.drop p))).length

/-- Chunks of three used by the thousands-separator formatter. -/
def chunk3 : List Char → List (List Char)
  | [] => []
  | [a] => [[a]]
  | [a, b] => [[a, b]]
  | a :: b :: c :: rest => [a, b, c] :: chunk3 rest

/-- Models Python `f"{n:,}"` for a natural number: decimal digits with a comma
every three digits. -/
def commaSep (n : Nat) : String :=
  let groups := (chunk3 (toString n).toList.reverse).map (fun g => String.mk g.reverse)
  String.intercalate "," groups.reverse

/-- Strict lexicographic comparison of char lists by code point; models Python
(and pandas) string ordering. -/
def charListLt : List Char → List Char → Bool
  | [], [] => false
  | [], _ :: _ => true
  | _ :: _, [] => false
  | a :: as, b :: bs => if a = b then charListLt as bs else decide (a < b)

/-- Strict string comparison used for pandas sort orders. -/
def strLtB (a b : String) : Bool := charListLt a.toList b.toList

/-- Insert a key into a strictly sorted, duplicate-free list of keys, keeping
it sorted and duplicate-free. -/
def insertKey (s : String) : List String → List String
  | [] => [s]
  | x :: xs =>
    if s = x then x :: xs
    else if strLtB s x then s :: x :: xs
    else x :: insertKey s xs

/-- The distinct values of a string list in ascending order; models the group
keys of a pandas `groupby` (which iterates sorted unique keys). -/
def sortedKeys (l : List String) : List String := l.foldr insertKey []

/-- Association-list lookup where a later binding overrides an earlier one;
models repeated Python `dict` assignment followed by `dict.get`. -/
def lookupLast [BEq α] (l : List (α × β)) (k : α) : Option β :=
  ((l.filter (fun p => p.1 == k)).getLast?).map (·.2)

/-! ### Code-reference scanner (`src/services/code_analysis_service.py`)

A corpus is an ordered list of `(relative path, file content)` pairs — the
files yielded by the repository walk, already restricted to readable files
(the source silently skips unreadable ones).  The fixed regex battery of
`analyze_table_impact` is embedded as token lists with the semantics of the
Python patterns under `re.IGNORECASE`: literal characters, character classes,
`\s+` / `\s*` (greedy; in every pattern of the battery the token following a
whitespace repetition can never match a whitespace character, so maximal munch
is exact), and the zero-width word boundary `\b`.  `re.finditer` semantics:
scan left to right, emit non-overlapping matches, resume at each match end. -/

/-- One token of an embedded regex pattern. -/
inductive RTok where
  | lit (c : Char)
  | cls (cs : List Char)
  | ws1
  | ws0
  | wb
deriving DecidableEq

/-- Case-insensitive character comparison (`re.IGNORECASE`). -/
def charIEq (a b : Char) : Bool := lowerChar a = lowerChar b

/-- Match a token list at the current position.  `pw` says whether the
character immediately before the current position is a word character (used by
`\b`).  Returns the number of characters consumed on success. -/
def matchToks : List RTok → Bool → List Char → Option Nat
  | [], _, _ => some 0
  | .lit c :: ts, _, x :: xs =>
    if charIEq c x then (matchToks ts (isWordChar x) xs).map (· + 1) else none
  | .lit _ :: _, _, [] => none
  | .cls cs :: ts, _, x :: xs =>
    if cs.any (fun c => charIEq c x) then (matchToks ts (isWordChar x) xs).map (· + 1) else none
  | .cls _ :: _, _, [] => none
  | .wb :: ts, pw, xs =>
    let cw := match xs with | [] => false | y :: _ => isWordChar y
    if pw ≠ cw then matchToks ts pw xs else none
  | .ws1 :: ts, _, xs =>
    let n := (xs.takeWhile isWs).length
    if n = 0 then none else (matchToks ts false (xs.drop n)).map (· + n)
  | .ws0 :: ts, pw, xs =>
    let n := (xs.takeWhile isWs).length
    (matchToks ts (if n = 0 then pw else false) (xs.drop n)).map (· + n)

/-- All match start positions of a pattern in a text, in ascending order, with
`re.finditer`'s non-overlapping scan: after a match of length `L ≥ 1` the scan
resumes `L` characters further (an empty match advances by one).  `pos` is the
index of the head of `xs` in the full text, `pw` the word-ness of the previous
character and `skip` the number of characters still to be skipped because they
belong to the previous match. -/
def scanPositions (toks : List RTok) : List Char → Nat → Bool → Nat → List Nat
  | [], pos, pw, skip =>
    if skip = 0 then
      match matchToks toks pw [] with
      | some _ => [pos]
      | none => []
    else []
  | x :: rest, pos, pw, skip =>
    if skip ≠ 0 then scanPositions toks rest (pos + 1) (isWordChar x) (skip - 1)
    else
      match matchToks toks pw (x :: rest) with
      | some L => pos :: scanPositions toks rest (pos + 1) (isWordChar x) (max L 1 - 1)
      | none => scanPositions toks rest (pos + 1) (isWordChar x) 0

/-- One recorded match: 1-based line number, the stripped source line, and the
pattern (string) that fired — the dict built in `analyze_table_impact`. -/
structure MatchRec where
  line : Nat
  content : String
  pattern : String
deriving DecidableEq

/-- The matches of a battery of patterns in one file's content: the pattern
loop of `analyze_table_impact` (and, identically, of
`GitAnalysisService._find_pattern_matches_in_content`) — for every pattern, all
its occurrences, with `line_num = content[:start].count('\n') + 1` and
`line_content = content.split('\n')[line_num - 1].strip()`. -/
def matchesInContent (content : String) (pats : List (String × List RTok)) : List MatchRec :=
  pats.flatMap (fun p =>
    (scanPositions p.2 content.toList 0 false 0).map (fun pos =>
      let ln := (content.toList.take pos).count '\n' + 1
      { line := ln
        content := pyStrip (String.mk ((splitChar '\n' content.toList).getD (ln - 1) []))
        pattern := p.1 }))

/-- Helper: a plain name as a sequence of literal tokens. -/
def litToks (s : String) : List RTok := s.toList.map RTok.lit

/-- The `table_patterns` battery of `analyze_table_impact`, for a table name
made of plain word characters (which is how the application invokes it): the
raw pattern strings exactly as Python's rf-strings produce them, paired with
their token semantics.  Note the source's last two patterns contain an
unclosed `["\'` character class, so `["\'{table_name}["\']` is a single
character class holding quotes, the name's characters and `[`. -/
def tablePatterns (n : String) : List (String × List RTok) :=
  [ ("\\b" ++ n ++ "\\b", [.wb] ++ litToks n ++ [.wb]),
    ("FROM\\s+" ++ n ++ "\\b", litToks "FROM" ++ [.ws1] ++ litToks n ++ [.wb]),
    ("JOIN\\s+" ++ n ++ "\\b", litToks "JOIN" ++ [.ws1] ++ litToks n ++ [.wb]),
    ("UPDATE\\s+" ++ n ++ "\\b", litToks "UPDATE" ++ [.ws1] ++ litToks n ++ [.wb]),
    ("INSERT\\s+INTO\\s+" ++ n ++ "\\b",
      litToks "INSERT" ++ [.ws1] ++ litToks "INTO" ++ [.ws1] ++ litToks n ++ [.wb]),
    ("DELETE\\s+FROM\\s+" ++ n ++ "\\b",
      litToks "DELETE" ++ [.ws1] ++ litToks "FROM" ++ [.ws1] ++ litToks n ++ [.wb]),
    ("@Table\\s*\\(\\s*name\\s*=\\s*[\"\\'" ++ n ++ "[\"\\']\\)",
      litToks "@Table" ++ [.ws0, .lit '(', .ws0] ++ litToks "name" ++
        [.ws0, .lit '=', .ws0, .cls (['"', '\''] ++ n.toList ++ ['[', '"', '\'']), .lit ')']),
    ("table_name\\s*=\\s*[\"\\'" ++ n ++ "[\"\\']\\)",
      litToks "table_name" ++
        [.ws0, .lit '=', .ws0, .cls (['"', '\''] ++ n.toList ++ ['[', '"', '\'']), .lit ')']) ]

/-- Per-file entry of the impact result (`matches_list` is the source dict's
`'matches'` key; `matches` is a reserved word in Lean). -/
structure FileImpact where
  path : String
  matches_list : List MatchRec
  count : Nat
deriving DecidableEq

/-- The `results` dict of `analyze_table_impact`. -/
structure ImpactResult where
  files : List FileImpact
  total_references : Nat
deriving DecidableEq

/-- `analyze_table_impact(repo_path, table_name, file_extensions)`: scan every
corpus file whose name ends with one of the allowed extensions, record all
pattern matches, keep only files with at least one match, and sum the match
counts into `total_references`. -/
def analyze_table_impact (corpus : List (String × String)) (table_name : String)
    (file_extensions : List String) : ImpactResult :=
  let pats := tablePatterns table_name
  corpus.foldl
    (fun acc f =>
      if file_extensions.any (fun e => endswith f.1 e) then
        let ms := matchesInContent f.2 pats
        if ms.isEmpty then acc
        else
          { files := acc.files ++ [{ path := f.1, matches_list := ms, count := ms.length }]
            total_references := acc.total_references + ms.length }
      else acc)
    { files := [], total_references := 0 }

/-- The code blob of `find_unused_objects`: the lowercased content of every
file passing the extension allow-list, each followed by a newline, concatenated
in corpus order. -/
def all_code_content (corpus : List (String × String)) (exts : List String) : String :=
  corpus.foldl
    (fun acc f => if exts.any (fun e => endswith f.1 e) then acc ++ lowerStr f.2 ++ "\n" else acc)
    ""

/-- Result record of `find_unused_objects`. -/
structure UnusedResult where
  unused_tables : List String
  unused_columns : List String
  total_tables : Nat
  total_columns : Nat
deriving DecidableEq

/-- `find_unused_objects(repo_path, all_tables, all_columns, file_extensions)`:
an object is reported unused when the lowercased last dot-segment of its name
does not occur as a substring of the code blob; the unused-column list is
truncated to its first 100 entries. -/
def find_unused_objects (corpus : List (String × String)) (all_tables all_columns : List String)
    (exts : List String) : UnusedResult :=
  let blob := all_code_content corpus exts
  { unused_tables := all_tables.filter (fun t => ! strContains (lowerStr (lastSeg t)) blob)
    unused_columns := (all_columns.filter (fun c => ! strContains (lowerStr (lastSeg c)) blob)).take 100
    total_tables := all_tables.length
    total_columns := all_columns.length }

/-! ### Unused-table filter (`src/ui/erd_ui.py`)

A non-`None` Python value that may sit in a `last_update` / `created` slot is
modelled by `LUVal`: its `str()` rendering together with its `pd.isna` status
(`NaT`/`NaN` values have `isNA = true`; a real timestamp has `isNA = false`).
An absent value (`dict.get` miss or an explicit `None`) is `Option.none`. -/

/-- A present (non-`None`) metadata value: its `str()` form and `pd.isna` status. -/
structure LUVal where
  strRepr : String
  isNA : Bool
deriving DecidableEq

/-- The per-table info dict built by `load_schema_metadata` (`'last_update'`,
`'created'`, `'rows'`, `'data_size'`, `'index_size'`; the numeric fields are
already normalised there with `or 0`). -/
structure TableInfo where
  last_update : Option LUVal
  created : Option LUVal
  rows : Nat
  data_size : Nat
  index_size : Nat
deriving DecidableEq

/-- The empty dict `{}` used when a table has no info record: every `get`
misses (`None` / default `0`). -/
def defaultTableInfo : TableInfo :=
  { last_update := none, created := none, rows := 0, data_size := 0, index_size := 0 }

/-- One row of the deduplicated, sorted `tables` frame built in
`_filter_and_process_tables` (columns `schema`, `table_name`). -/
structure SchemaTableRow where
  schema : String
  table_name : String
deriving DecidableEq

/-- The keyword allow-list of `_is_enum_table`. -/
def enumKeywords : List String :=
  ["status", "type", "category", "enum", "lookup", "reference",
   "config", "setting", "option", "code", "list", "reason",
   "complete_by", "job_truck_unit", "dispath_ordrer", "attribiute",
   "transcription_field", "entity_note"]

/-- `_is_enum_table(table_name)`: the lowercased name contains one of the
enum/lookup keywords. -/
def is_enum_table (table_name : String) : Bool :=
  enumKeywords.any (fun p => strContains p (lowerStr table_name))

/-- The null-sentinel strings of `_is_unused_table`. -/
def nullSentinels : List String := ["nat", "none", "null", "unknown"]

/-- `_is_unused_table(last_update)`: `last_update is None or pd.isna(...) or
str(...).lower() in ['nat','none','null','unknown']`. -/
def is_unused_table (last_update : Option LUVal) : Bool :=
  match last_update with
  | none => true
  | some v => v.isNA || nullSentinels.contains (lowerStr v.strRepr)

/-- The exclusion report row built by `_create_exclusion_record`.  The byte
size is kept exact together with the chosen display unit (`GB` iff the MB
value reaches 1024, i.e. iff the byte total reaches `2^30`); the two-decimal
float rendering of the size is not modelled. -/
structure ExclusionRecord where
  table : String
  reason : String
  size_bytes : Nat
  size_in_gb : Bool
  rows_display : String
  created_display : String
  last_updated : String
deriving DecidableEq

/-- `_create_exclusion_record(schema_name, table_name, info, last_update)`. -/
def create_exclusion_record (schema_name table_name : String) (info : TableInfo)
    (last_update : Option LUVal) : ExclusionRecord :=
  { table := schema_name ++ "." ++ table_name
    reason :=
      match last_update with
      | none => "No UPDATE_TIME metadata (non-enum table)"
      | some v =>
        if v.isNA then "UPDATE_TIME is NaT (non-enum table)"
        else "UPDATE_TIME is '" ++ v.strRepr ++ "' (non-enum table)"
    size_bytes := info.data_size + info.index_size
    size_in_gb := decide (1073741824 ≤ info.data_size + info.index_size)
    rows_display := commaSep info.rows
    created_display :=
      match info.created with
      | none => "Unknown"
      | some v => if v.isNA then "Unknown" else strTake v.strRepr 19
    last_updated := "None" }

/-- The info record a table row sees: `table_info.get((schema, table), {})`. -/
def lookupInfo (table_info : List ((String × String) × TableInfo)) (r : SchemaTableRow) :
    TableInfo :=
  (table_info.lookup (r.schema, r.table_name)).getD defaultTableInfo

/-- `_filter_unused_tables(tables, sel_schemas)` with the `table_info` mapping
that `_collect_table_info` returns passed explicitly: walk the table rows in
order; enum/lookup tables are always kept, otherwise a table with an unused
`last_update` goes to the exclusion report, and every other table is kept. -/
def filter_unused_tables (tables : List SchemaTableRow)
    (table_info : List ((String × String) × TableInfo)) :
    List SchemaTableRow × List ExclusionRecord :=
  match tables with
  | [] => ([], [])
  | row :: rest =>
    let res := filter_unused_tables rest table_info
    let info := lookupInfo table_info row
    if is_enum_table row.table_name then (row :: res.1, res.2)
    else if is_unused_table info.last_update then
      (res.1, create_exclusion_record row.schema row.table_name info info.last_update :: res.2)
    else (row :: res.1, res.2)

/-! ### Per-schema metadata load (`src/services/database_service.py`)

`load_schema_metadata` talks to the database; each query (and the connection
itself) can raise.  The environment is modelled by a record of query outcomes:
what each query would return, or the exception it would raise.  The whole
Python body is wrapped in `try/except Exception: return empty`, and the inner
`SHOW TABLES` fallback has its own `except` that falls through to the empty
snapshot, so every error path of the model returns the empty snapshot. -/

/-- One row of the `information_schema.tables` query of `load_schema_metadata`. -/
structure DbTableRow where
  name : String
  update_time : Option LUVal
  create_time : Option LUVal
  table_rows : Option Nat
  data_length : Option Nat
  index_length : Option Nat
deriving DecidableEq

/-- The `schema_data` dict (`SchemaSnapshot` of the spec): table list, columns
per table, info per table. -/
structure SchemaData where
  tables : List String
  columns : List (String × List String)
  table_info : List (String × TableInfo)
deriving DecidableEq

/-- The empty snapshot `{'tables': [], 'columns': {}, 'table_info': {}}`. -/
def emptySchemaData : SchemaData := { tables := [], columns := [], table_info := [] }

/-- Outcomes of the database interactions `load_schema_metadata` performs:
connecting, the tables query, the columns query, and the `SHOW TABLES`
fallback.  `Except.error` stands for a raised exception. -/
structure DbOutcomes where
  connect : Except String Unit
  tables_query : Except String (List DbTableRow)
  columns_query : Except String (List (String × String))
  show_tables_query : Except String (List String)

/-- `load_schema_metadata(schema, connection_params)` over modelled query
outcomes: build the snapshot from the tables and columns queries; when the
tables query returns nothing, fall back to `SHOW TABLES` for bare table names;
any raised exception yields the empty snapshot. -/
def load_schema_metadata (db : DbOutcomes) : SchemaData :=
  match db.connect with
  | .error _ => emptySchemaData
  | .ok _ =>
    match db.tables_query with
    | .error _ => emptySchemaData
    | .ok tablesRows =>
      if tablesRows.isEmpty then
        match db.show_tables_query with
        | .error _ => emptySchemaData
        | .ok ts => if ts.isEmpty then emptySchemaData else { tables := ts, columns := [], table_info := [] }
      else
        match db.columns_query with
        | .error _ => emptySchemaData
        | .ok colRows =>
          let tables := tablesRows.map (·.name)
          { tables := tables
            columns :=
              if colRows.isEmpty then []
              else tables.map (fun t => (t, (colRows.filter (fun c => c.1 == t)).map (·.2)))
            table_info := tablesRows.map (fun r =>
              (r.name,
                { last_update := r.update_time
                  created := r.create_time
                  rows := r.table_rows.getD 0
                  data_size := r.data_length.getD 0
                  index_size := r.index_length.getD 0 })) }

/-- Whether the modelled execution of `load_schema_metadata` hits a raised
exception (while connecting or during whichever query its control flow
actually reaches). -/
def query_failed (db : DbOutcomes) : Bool :=
  match db.connect with
  | .error _ => true
  | .ok _ =>
    match db.tables_query with
    | .error _ => true
    | .ok rows =>
      if rows.isEmpty then
        match db.show_tables_query with
        | .error _ => true
        | .ok _ => false
      else
        match db.columns_query with
        | .error _ => true
        | .ok _ => false

/-! ### Schema diff engine (`src/tabs/environment_compare.py`) -/

/-- The three sets computed at the top of `_display_table_comparison`. -/
structure TableComparison where
  only_in_1 : Finset String
  only_in_2 : Finset String
  common : Finset String
deriving DecidableEq

/-- The table-set comparison of `_display_table_comparison`:
`tables1 - tables2`, `tables2 - tables1`, `tables1 & tables2` over the Python
sets built from the two snapshots' table lists. -/
def compare_tables (data1 data2 : SchemaData) : TableComparison :=
  { only_in_1 := data1.tables.toFinset \ data2.tables.toFinset
    only_in_2 := data2.tables.toFinset \ data1.tables.toFinset
    common := data1.tables.toFinset ∩ data2.tables.toFinset }

/-- The per-table column-set diff of `_display_column_comparison`:
`cols1 - cols2` and `cols2 - cols1` for one common table. -/
def column_diff (data1 data2 : SchemaData) (table : String) : Finset String × Finset String :=
  let c1 := ((data1.columns.lookup table).getD []).toFinset
  let c2 := ((data2.columns.lookup table).getD []).toFinset
  (c1 \ c2, c2 \ c1)

/-! ### ERD graph builder (`src/services/erd_service.py`)

Metadata frames are lists of typed rows carrying the canonical column names of
the repository's own queries (which is what the source's dynamic column-name
resolution resolves to on this data).  `char_len`, `num_precision`,
`num_scale` and `non_unique` travel as the strings the queries coalesce them
to.  The graphviz `Digraph` is modelled as the ordered list of emitted node
statements (id, label, enclosing cluster) and edge statements.  A pandas
`groupby("schema")` iterates its groups by ascending key with the rows of each
group in input order, which is embedded directly as a flat map over the sorted
distinct schemas.  Non-ASCII glyph literals are copied byte-for-byte from the
source file. -/

/-- One row of the columns frame (`fetch_columns`). -/
structure ColumnRow where
  schema : String
  table_name : String
  column_name : String
  data_type : String
  is_nullable : String
  char_len : String
  num_precision : String
  num_scale : String
  column_default : String
deriving DecidableEq

/-- One row of the primary-keys frame (`fetch_primary_keys`). -/
structure PkRow where
  schema : String
  table_name : String
  column_name : String
  ordinal_position : Nat
deriving DecidableEq

/-- One row of the foreign-keys frame (`fetch_foreign_keys`). -/
structure FkRow where
  child_schema : String
  child_table : String
  child_column : String
  parent_schema : String
  parent_table : String
  parent_column : String
  constraint_name : String
deriving DecidableEq

/-- One row of the indexes frame (`fetch_indexes`). -/
structure IndexRow where
  schema : String
  table_name : String
  index_name : String
  index_columns : String
  non_unique : String
deriving DecidableEq

/-- One row of the row-counts frame (`fetch_row_counts`). -/
structure RowCountRow where
  schema : String
  table_name : String
  row_count : Nat
deriving DecidableEq

/-- A node statement of the emitted graphviz digraph. -/
structure GraphNode where
  id : String
  label : String
  cluster : Option String
deriving DecidableEq

/-- An edge statement of the emitted graphviz digraph. -/
structure GraphEdge where
  child : String
  parent : String
  label : String
deriving DecidableEq

/-- The emitted digraph: node statements and edge statements in emission order. -/
structure Digraph where
  nodes : List GraphNode
  edges : List GraphEdge
deriving DecidableEq

/-- `html_escape(s)`: the three sequential `str.replace` calls (`&` first, then
`<`, then `>`); since the replacement texts contain no `<` or `>` and `&` is
replaced first, this equals a single character-wise expansion. -/
def html_escape (s : String) : String :=
  String.mk (s.toList.flatMap (fun c =>
    if c = '&' then "&amp;".toList
    else if c = '<' then "&lt;".toList
    else if c = '>' then "&gt;".toList
    else [c]))

/-- The `not in (None, "", 0, "0")` test of `_format_column_detail` on a
string-valued field. -/
def notBlank (s : String) : Bool := ! (s = "" || s = "0")

/-- `_format_column_detail(r, dtype)`. -/
def format_column_detail (r : ColumnRow) : String :=
  if notBlank r.char_len then r.data_type ++ "(" ++ r.char_len ++ ")"
  else if notBlank r.num_precision then
    if notBlank r.num_scale then r.data_type ++ "(" ++ r.num_precision ++ "," ++ r.num_scale ++ ")"
    else r.data_type ++ "(" ++ r.num_precision ++ ")"
  else r.data_type

/-- One `<tr>` of `_build_column_rows` for a column row. -/
def column_row_html (schema table : String) (pk_set : List (String × String × String))
    (fk_child_keys : List (String × String × String)) (r : ColumnRow) : String :=
  let keyMarks :=
    (if pk_set.contains (schema, table, r.column_name) then "ðŸ”‘ " else "") ++
    (if fk_child_keys.contains (schema, table, r.column_name) then "ðŸ”— " else "")
  let nn := if (r.is_nullable.toList.map Char.toUpper) = "NO".toList then "NOT NULL" else "NULL"
  "<tr><td align='left'><font point-size='10'>" ++ html_escape (keyMarks ++ r.column_name) ++
    " : " ++ html_escape (format_column_detail r) ++ " <i>(" ++ nn ++ ")</i></font></td></tr>"

/-- The enumerated loop of `_build_column_rows`: render each column row until
`max_cols` rows are shown, then emit one summary row and stop. -/
def column_rows_loop (schema table : String) (pk_set fk_child_keys : List (String × String × String))
    (total max_cols : Nat) : Nat → List ColumnRow → List String
  | _, [] => []
  | displayed, r :: rest =>
    if max_cols ≤ displayed then
      ["<tr><td align='left'><i>â€¦ " ++ toString (total - max_cols) ++ " more columns</i></td></tr>"]
    else
      column_row_html schema table pk_set fk_child_keys r ::
        column_rows_loop schema table pk_set fk_child_keys total max_cols (displayed + 1) rest

/-- `_build_column_rows(cols_df, schema, table, pk_set, fk_cols_map, max_cols)`. -/
def build_column_rows (cols_df : List ColumnRow) (schema table : String)
    (pk_set fk_child_keys : List (String × String × String)) (max_cols : Nat) : List String :=
  column_rows_loop schema table pk_set fk_child_keys cols_df.length max_cols 0 cols_df

/-- `_build_index_rows(idx_df)`. -/
def build_index_rows (idx_df : List IndexRow) : List String :=
  if idx_df.isEmpty then []
  else
    "<tr><td><b>Indexes</b></td></tr>" ::
      idx_df.map (fun r =>
        let uniq := if r.non_unique = "0" then "UNIQUE " else ""
        "<tr><td align='left'><font point-size='9'>" ++
          html_escape (uniq ++ r.index_name ++ " (" ++ r.index_columns ++ ")") ++
          "</font></td></tr>")

/-- `build_table_label(schema, table, cols_df, pk_set, fk_cols_map, idx_df,
row_count, show_schema, max_cols)`. -/
def build_table_label (schema table : String) (cols_df : List ColumnRow)
    (pk_set fk_child_keys : List (String × String × String)) (idx_df : List IndexRow)
    (row_count : Option Nat) (show_schema : Bool) (max_cols : Nat) : String :=
  let title := if show_schema then schema ++ "." ++ table else table
  let rows_html := build_column_rows cols_df schema table pk_set fk_child_keys max_cols
  let idx_html := build_index_rows idx_df
  let rc_html :=
    match row_count with
    | none => []
    | some rc =>
      ["<tr><td align='left'><font point-size='9'>~rows: " ++ commaSep rc ++ "</font></td></tr>"]
  "<\n<table border='0' cellborder='1' cellspacing='0'>" ++
    "<tr><td bgcolor='lightblue'><b>" ++ html_escape title ++ "</b></td></tr>" ++
    String.join (rc_html ++ rows_html ++ idx_html) ++
    "</table>\n>"

/-- The graphviz id `f"{schema}.{table_name}"` of a table's node. -/
def nodeId (r : SchemaTableRow) : String := r.schema ++ "." ++ r.table_name

/-- The edge emitted for one foreign-key row: child node → parent node with the
column-mapping label. -/
def mkFkEdge (r : FkRow) : GraphEdge :=
  { child := r.child_schema ++ "." ++ r.child_table
    parent := r.parent_schema ++ "." ++ r.parent_table
    label := r.child_column ++ " â†’ " ++ r.parent_column }

/-- The node emitted for one table row of `build_graph`: its columns slice of
the columns frame, its index slice, its row-count lookup (dict semantics:
later duplicate keys override earlier ones), and its rendered label. -/
def makeTableNode (columns : List ColumnRow) (pk_set fk_child_keys : List (String × String × String))
    (indexes : List IndexRow) (rowcounts : List RowCountRow) (show_schema : Bool) (max_cols : Nat)
    (cluster : Option String) (t : SchemaTableRow) : GraphNode :=
  let cols_df := columns.filter (fun c => c.schema == t.schema && c.table_name == t.table_name)
  let idx_df := indexes.filter (fun r => r.schema == t.schema && r.table_name == t.table_name)
  let rowc := lookupLast (rowcounts.map (fun r => ((r.schema, r.table_name), r.row_count)))
    (t.schema, t.table_name)
  { id := nodeId t
    label := build_table_label t.schema t.table_name cols_df pk_set fk_child_keys idx_df rowc
      show_schema max_cols
    cluster := cluster }

/-- `build_graph(schema_tables, columns, pks, fks, indexes, rowcounts,
cluster_by_schema, show_schema_prefix, max_cols)`: the primary-key set and
foreign-key child-column key set drive the per-column key glyphs; one node is
emitted per table row (grouped into per-schema clusters when requested, in the
`groupby` order: ascending schema key, rows in input order within a group);
one edge is emitted per foreign-key row. -/
def build_graph (schema_tables : List SchemaTableRow) (columns : List ColumnRow)
    (pks : List PkRow) (fks : List FkRow) (indexes : List IndexRow)
    (rowcounts : List RowCountRow) (cluster_by_schema : Bool) (show_schema : Bool)
    (max_cols : Nat) : Digraph :=
  let pk_set := pks.map (fun r => (r.schema, r.table_name, r.column_name))
  let fk_child_keys := fks.map (fun r => (r.child_schema, r.child_table, r.child_column))
  let mkNode := makeTableNode columns pk_set fk_child_keys indexes rowcounts show_schema max_cols
  let nodes :=
    if cluster_by_schema then
      (sortedKeys (schema_tables.map (·.schema))).flatMap (fun s =>
        (schema_tables.filter (fun r => r.schema == s)).map (mkNode (some s)))
    else
      schema_tables.map (mkNode none)
  { nodes := nodes, edges := fks.map mkFkEdge }

/-- The ascending (schema, table) row order produced by
`tables.sort_values([schema_col, table_col])` in `_filter_and_process_tables`,
as a Boolean relation between consecutive rows. -/
def tableRowLe (a b : SchemaTableRow) : Bool :=
  strLtB a.schema b.schema || (a.schema == b.schema && ! strLtB b.table_name a.table_name)

/-! ### Order lemmas for the grouping argument -/

theorem charListLt_asymm : ∀ {a b : List Char},
    charListLt a b = true → charListLt b a = false
  | [], [], h => by simp [charListLt] at h
  | [], _ :: _, _ => by simp [charListLt]
  | _ :: _, [], h => by simp [charListLt] at h
  | x :: xs, y :: ys, h => by
    by_cases hxy : x = y
    · subst hxy
      simp only [charListLt, if_pos rfl] at h ⊢
      exact charListLt_asymm h
    · simp only [charListLt, if_neg hxy, decide_eq_true_eq] at h
      simp only [charListLt, if_neg (Ne.symm hxy), decide_eq_false_iff_not]
      exact lt_asymm h

theorem charListLt_conn : ∀ {a b : List Char},
    charListLt a b = false → charListLt b a = false → a = b
  | [], [], _, _ => rfl
  | [], _ :: _, h, _ => by simp [charListLt] at h
  | _ :: _, [], _, h => by simp [charListLt] at h
  | x :: xs, y :: ys, h, h' => by
    by_cases hxy : x = y
    · subst hxy
      simp only [charListLt, if_pos rfl] at h h'
      exact congrArg (x :: ·) (charListLt_conn h h')
    · simp only [charListLt, if_neg hxy, decide_eq_false_iff_not, not_lt] at h
      simp only [charListLt, if_neg (Ne.symm hxy), decide_eq_false_iff_not, not_lt] at h'
      exact absurd (le_antisymm h' h) hxy

theorem charListLt_trans : ∀ {a b c : List Char},
    charListLt a b = true → charListLt b c = true → charListLt a c = true
  | [], _, _ :: _, _, _ => by simp [charListLt]
  | [], b, [], _, h' => by cases b <;> simp [charListLt] at h'
  | _ :: _, b, [], _, h' => by cases b <;> simp [charListLt] at h'
  | x :: xs, b, z :: zs, h, h' => by
    match b with
    | [] => simp [charListLt] at h
    | y :: ys =>
      by_cases hxy : x = y <;> by_cases hyz : y = z
      · subst hxy; subst hyz
        simp only [charListLt, if_pos rfl] at h h' ⊢
        exact charListLt_trans h h'
      · subst hxy
        simp only [charListLt, if_neg hyz] at h' ⊢
        exact h'
      · subst hyz
        simp only [charListLt, if_neg hxy] at h ⊢
        exact h
      · simp only [charListLt, if_neg hxy, decide_eq_true_eq] at h
        simp only [charListLt, if_neg hyz, decide_eq_true_eq] at h'
        have hxz : x < z := lt_trans h h'
        simp only [charListLt, if_neg (ne_of_lt hxz), decide_eq_true_eq]
        exact hxz

theorem strLtB_asymm {a b : String} (h : strLtB a b = true) : strLtB b a = false :=
  charListLt_asymm h

theorem charListLt_irrefl : ∀ (l : List Char), charListLt l l = false
  | [] => rfl
  | x :: xs => by simp [charListLt, charListLt_irrefl xs]

theorem strLtB_irrefl (a : String) : strLtB a a = false :=
  charListLt_irrefl a.toList

theorem strLtB_conn {a b : String} (h : strLtB a b = false) (h' : strLtB b a = false) :
    a = b := by
  have hl : a.toList = b.toList := charListLt_conn h h'
  cases a; cases b
  exact congrArg String.mk hl

theorem strLtB_trans {a b c : String} (h : strLtB a b = true) (h' : strLtB b c = true) :
    strLtB a c = true :=
  charListLt_trans h h'

theorem mem_insertKey {a s : String} : ∀ {l : List String},
    a ∈ insertKey s l ↔ a = s ∨ a ∈ l
  | [] => by simp [insertKey]
  | x :: xs => by
    by_cases hx : s = x
    · subst hx; simp only [insertKey, if_pos rfl]
      constructor
      · intro h; exact Or.inr h
      · rintro (rfl | h)
        · exact List.mem_cons_self _ _
        · exact h
    · by_cases hlt : strLtB s x = true
      · simp only [insertKey, if_neg hx, if_pos hlt, List.mem_cons]
      · simp only [insertKey, if_neg hx, if_neg hlt, List.mem_cons]
        rw [mem_insertKey (l := xs)]
        tauto

theorem sorted_insertKey {s : String} : ∀ {l : List String},
    l.Pairwise (fun a b => strLtB a b = true) →
    (insertKey s l).Pairwise (fun a b => strLtB a b = true)
  | [], _ => by simp [insertKey]
  | x :: xs, h => by
    rcases List.pairwise_cons.mp h with ⟨hhead, htail⟩
    by_cases hx : s = x
    · subst hx; simpa [insertKey] using h
    · by_cases hlt : strLtB s x = true
      · simp only [insertKey, if_neg hx, if_pos hlt]
        refine List.pairwise_cons.mpr ⟨?_, h⟩
        intro y hy
        rcases List.mem_cons.mp hy with rfl | hy'
        · exact hlt
        · exact strLtB_trans hlt (hhead y hy')
      · have hxs : strLtB x s = true := by
          by_cases hxs : strLtB x s = true
          · exact hxs
          · exact absurd (strLtB_conn (by simpa using hlt) (by simpa using hxs)) hx
        simp only [insertKey, if_neg hx, if_neg hlt]
        refine List.pairwise_cons.mpr ⟨?_, sorted_insertKey htail⟩
        intro y hy
        rcases mem_insertKey.mp hy with rfl | hy'
        · exact hxs
        · exact hhead y hy'

theorem mem_sortedKeys {a : String} : ∀ {l : List String}, a ∈ sortedKeys l ↔ a ∈ l
  | [] => by simp [sortedKeys]
  | x :: xs => by
    show a ∈ insertKey x (sortedKeys xs) ↔ _
    rw [mem_insertKey, mem_sortedKeys (l := xs)]
    simp

theorem sorted_sortedKeys : ∀ (l : List String),
    (sortedKeys l).Pairwise (fun a b => strLtB a b = true)
  | [] => by simp [sortedKeys]
  | x :: xs => sorted_insertKey (sorted_sortedKeys xs)

theorem insertKey_min {s : String} {l : List String}
    (hs : l.Pairwise (fun a b => strLtB a b = true))
    (hmin : ∀ x ∈ l, strLtB x s = false) :
    insertKey s l = if s ∈ l then l else s :: l := by
  match l with
  | [] => simp [insertKey]
  | x :: xs =>
    by_cases hx : s = x
    · subst hx
      simp [insertKey, List.mem_cons]
    · have hlt : strLtB s x = true := by
        by_cases hlt : strLtB s x = true
        · exact hlt
        · exact absurd
            (strLtB_conn (by simpa using hlt) (hmin x (List.mem_cons_self _ _))) hx
      have hnot : s ∉ x :: xs := by
        intro hmem
        rcases List.mem_cons.mp hmem with rfl | hmem'
        · exact hx rfl
        · have := (List.pairwise_cons.mp hs).1 s hmem'
          rw [strLtB_asymm this] at hlt
          exact absurd hlt (by simp)
      simp [insertKey, if_neg hx, if_pos hlt, hnot]

theorem flatMap_congr_mem {l : List α} {f g : α → List β}
    (h : ∀ a ∈ l, f a = g a) : l.flatMap f = l.flatMap g := by
  induction l with
  | nil => rfl
  | cons x xs ih =>
    simp only [List.flatMap_cons]
    rw [h x (List.mem_cons_self _ _), ih (fun a ha => h a (List.mem_cons_of_mem _ ha))]

/-- Auxiliary step for `sorted_flatMap_filter`: if the sorted key list already
contains the head row's schema (necessarily as its first key), prepending that
row to the grouped rows prepends it to the concatenation. -/
theorem flat_cons_of_mem {r : SchemaTableRow} {rest : List SchemaTableRow} :
    ∀ {ks : List String}, ks.Pairwise (fun a b => strLtB a b = true) →
    (∀ x ∈ ks, strLtB x r.schema = false) → r.schema ∈ ks →
    ks.flatMap (fun s => rest.filter (fun r' => r'.schema == s)) = rest →
    ks.flatMap (fun s => (r :: rest).filter (fun r' => r'.schema == s)) = r :: rest
  | [], _, _, hin, _ => absurd hin (List.not_mem_nil _)
  | x :: xs, hsx, hmin, hin, hIH => by
    have hx : x = r.schema := by
      rcases List.mem_cons.mp hin with heq | hmem
      · exact heq.symm
      · have h1 := (List.pairwise_cons.mp hsx).1 _ hmem
        have h2 := hmin x (List.mem_cons_self _ _)
        rw [h1] at h2
        exact absurd h2 (by simp)
    have hfx : (r :: rest).filter (fun r' => r'.schema == x) =
        r :: rest.filter (fun r' => r'.schema == x) := by
      rw [List.filter_cons, if_pos (by simp [hx])]
    have hrest : ∀ k ∈ xs, (r :: rest).filter (fun r' => r'.schema == k) =
        rest.filter (fun r' => r'.schema == k) := by
      intro k hk
      have hne : r.schema ≠ k := by
        intro hEq
        have h1 := (List.pairwise_cons.mp hsx).1 _ hk
        rw [hx, ← hEq, strLtB_irrefl] at h1
        exact absurd h1 (by simp)
      rw [List.filter_cons, if_neg (by simp [hne])]
    simp only [List.flatMap_cons] at hIH ⊢
    rw [hfx, flatMap_congr_mem hrest, List.cons_append, hIH]

/-- Grouping a row list by its (ascending) distinct schema keys and
concatenating the groups reproduces the row list, provided the rows are
already ascending in schema — the order a pandas `groupby` iterates a frame
sorted by `sort_values`. -/
theorem sorted_flatMap_filter : ∀ {rows : List SchemaTableRow},
    rows.Pairwise (fun a b => strLtB b.schema a.schema = false) →
    (sortedKeys (rows.map (·.schema))).flatMap
      (fun s => rows.filter (fun r => r.schema == s)) = rows
  | [], _ => rfl
  | r :: rest, h => by
    rcases List.pairwise_cons.mp h with ⟨hr, h'⟩
    have hmin : ∀ x ∈ sortedKeys (rest.map (·.schema)), strLtB x r.schema = false := by
      intro x hx
      rcases List.mem_map.mp (mem_sortedKeys.mp hx) with ⟨b, hb, rfl⟩
      exact hr b hb
    have hsortks := sorted_sortedKeys (rest.map (·.schema))
    have hkeys : sortedKeys ((r :: rest).map (·.schema)) =
        insertKey r.schema (sortedKeys (rest.map (·.schema))) := rfl
    rw [hkeys, insertKey_min hsortks hmin]
    by_cases hin : r.schema ∈ sortedKeys (rest.map (·.schema))
    · rw [if_pos hin]
      exact flat_cons_of_mem hsortks hmin hin (sorted_flatMap_filter h')
    · rw [if_neg hin]
      have hf0 : rest.filter (fun r' => r'.schema == r.schema) = [] := by
        rw [List.filter_eq_nil_iff]
        intro b hb hbeq
        exact hin (mem_sortedKeys.mpr (List.mem_map.mpr ⟨b, hb, by simpa using hbeq⟩))
      have hfr : (r :: rest).filter (fun r' => r'.schema == r.schema) = [r] := by
        rw [List.filter_cons, if_pos (by simp), hf0]
      have hrest : ∀ k ∈ sortedKeys (rest.map (·.schema)),
          (r :: rest).filter (fun r' => r'.schema == k) =
            rest.filter (fun r' => r'.schema == k) := by
        intro k hk
        have hne : r.schema ≠ k := fun hEq => hin (hEq ▸ hk)
        rw [List.filter_cons, if_neg (by simp [hne])]
      rw [List.flatMap_cons, hfr, flatMap_congr_mem hrest, sorted_flatMap_filter h']
      rfl

/-! ### Characterisations of the unused-table filter -/

theorem filter_unused_fst (ti : List ((String × String) × TableInfo)) :
    ∀ (tables : List SchemaTableRow),
    (filter_unused_tables tables ti).1 = tables.filter
      (fun r => is_enum_table r.table_name || ! is_unused_table (lookupInfo ti r).last_update)
  | [] => rfl
  | row :: rest => by
    by_cases he : is_enum_table row.table_name = true
    · simp [filter_unused_tables, he, filter_unused_fst ti rest]
    · by_cases hu : is_unused_table (lookupInfo ti row).last_update = true
      · simp [filter_unused_tables, he, hu, filter_unused_fst ti rest]
      · simp [filter_unused_tables, he, hu, filter_unused_fst ti rest]

theorem filter_unused_snd (ti : List ((String × String) × TableInfo)) :
    ∀ (tables : List SchemaTableRow),
    (filter_unused_tables tables ti).2 = (tables.filter
      (fun r => ! is_enum_table r.table_name && is_unused_table (lookupInfo ti r).last_update)).map
      (fun r => create_exclusion_record r.schema r.table_name (lookupInfo ti r)
        (lookupInfo ti r).last_update)
  | [] => rfl
  | row :: rest => by
    by_cases he : is_enum_table row.table_name = true
    · simp [filter_unused_tables, he, filter_unused_snd ti rest]
    · by_cases hu : is_unused_table (lookupInfo ti row).last_update = true
      · simp [filter_unused_tables, he, hu, filter_unused_snd ti rest]
      · simp [filter_unused_tables, he, hu, filter_unused_snd ti rest]

theorem keep_cond_iff (lu : Option LUVal) (e : Bool) :
    (e || ! is_unused_table lu) = true ↔
      e = true ∨ ∃ v, lu = some v ∧ v.isNA = false ∧
        nullSentinels.contains (lowerStr v.strRepr) = false := by
  cases lu with
  | none => simp [is_unused_table]
  | some v =>
    simp only [is_unused_table, Bool.or_eq_true, Bool.not_eq_true', Bool.or_eq_false_iff,
      Option.some.injEq]
    constructor
    · rintro (h | ⟨h1, h2⟩)
      · exact Or.inl h
      · exact Or.inr ⟨v, rfl, h1, h2⟩
    · rintro (h | ⟨v', hv, h1, h2⟩)
      · exact Or.inl h
      · cases hv; exact Or.inr ⟨h1, h2⟩

theorem excl_cond_iff (lu : Option LUVal) (e : Bool) :
    (e || ! is_unused_table lu) = false ↔
      e = false ∧ (lu = none ∨ ∃ v, lu = some v ∧
        (v.isNA = true ∨ nullSentinels.contains (lowerStr v.strRepr) = true)) := by
  cases lu with
  | none => simp [is_unused_table]
  | some v =>
    simp only [is_unused_table, Bool.or_eq_false_iff, Bool.not_eq_false', Bool.or_eq_true,
      Option.some.injEq, reduceCtorEq, false_or]
    constructor
    · rintro ⟨h1, h2⟩
      exact ⟨h1, v, rfl, h2⟩
    · rintro ⟨h1, v', hv, h2⟩
      cases hv; exact ⟨h1, h2⟩

/-! ### Code blob lemmas -/

theorem foldl_unselected (exts : List String) :
    ∀ (corpus : List (String × String)) (acc : String),
    (∀ f ∈ corpus, exts.any (fun e => endswith f.1 e) = false) →
    corpus.foldl
      (fun acc f => if exts.any (fun e => endswith f.1 e) then acc ++ lowerStr f.2 ++ "\n" else acc)
      acc = acc
  | [], _, _ => rfl
  | f :: rest, acc, h => by
    have hf := h f (List.mem_cons_self _ _)
    simp only [List.foldl_cons, hf, Bool.false_eq_true, if_false]
    exact foldl_unselected exts rest acc (fun g hg => h g (List.mem_cons_of_mem _ hg))

theorem all_code_content_nil {corpus : List (String × String)} {exts : List String}
    (h : ∀ f ∈ corpus, exts.any (fun e => endswith f.1 e) = false) :
    all_code_content corpus exts = "" :=
  foldl_unselected exts corpus "" h

theorem strContains_empty (s : String) : strContains s "" = s.toList.isEmpty := rfl

theorem toList_eq_nil_iff {s : String} : s.toList = [] ↔ s = "" := by
  cases s with
  | mk d => exact ⟨fun h => congrArg String.mk h, fun h => congrArg String.toList h⟩

/-! ### Claims about the unused-table filter -/

/-- Claim C2: a table row is kept by the unused-table filter iff its name
matches an enum/lookup keyword or its `last_update` is present, not NaN/NaT,
and its lowercased string form is not a null-sentinel; dually it is excluded
(not kept) iff it matches no enum keyword and `last_update` is absent or a
null sentinel — and in that case it lands in the exclusion report. -/
theorem unused_filter_keep_iff (tables : List SchemaTableRow)
    (ti : List ((String × String) × TableInfo)) (r : SchemaTableRow) (hr : r ∈ tables) :
    (r ∈ (filter_unused_tables tables ti).1 ↔
      is_enum_table r.table_name = true ∨
      ∃ v, (lookupInfo ti r).last_update = some v ∧ v.isNA = false ∧
        nullSentinels.contains (lowerStr v.strRepr) = false) ∧
    (r ∉ (filter_unused_tables tables ti).1 ↔
      is_enum_table r.table_name = false ∧
      ((lookupInfo ti r).last_update = none ∨
        ∃ v, (lookupInfo ti r).last_update = some v ∧
          (v.isNA = true ∨ nullSentinels.contains (lowerStr v.strRepr) = true))) ∧
    (is_enum_table r.table_name = false ∧
        is_unused_table (lookupInfo ti r).last_update = true →
      ∃ e ∈ (filter_unused_tables tables ti).2, e.table = r.schema ++ "." ++ r.table_name) := by
  refine ⟨?_, ?_, ?_⟩
  · rw [filter_unused_fst ti, List.mem_filter, and_iff_right hr]
    exact keep_cond_iff _ _
  · rw [filter_unused_fst ti, List.mem_filter, and_iff_right hr, Bool.not_eq_true]
    exact excl_cond_iff _ _
  · rintro ⟨he, hu⟩
    refine ⟨create_exclusion_record r.schema r.table_name (lookupInfo ti r)
      (lookupInfo ti r).last_update, ?_, rfl⟩
    rw [filter_unused_snd ti]
    exact List.mem_map_of_mem _ (List.mem_filter.mpr ⟨hr, by simp [he, hu]⟩)

/-- Witness for C2 at a concrete row, info map and non-sentinel timestamp. -/
theorem unused_filter_keep_iff_witness :
    (⟨"s", "users"⟩ : SchemaTableRow) ∈ [(⟨"s", "users"⟩ : SchemaTableRow)] ∧
    ((⟨"s", "users"⟩ : SchemaTableRow) ∈ (filter_unused_tables [⟨"s", "users"⟩]
        [(("s", "users"), ⟨some ⟨"2024-01-01 10:00:00", false⟩, none, 5, 10, 20⟩)]).1 ↔
      is_enum_table "users" = true ∨
      ∃ v, (lookupInfo [(("s", "users"), ⟨some ⟨"2024-01-01 10:00:00", false⟩, none, 5, 10, 20⟩)]
          ⟨"s", "users"⟩).last_update = some v ∧ v.isNA = false ∧
        nullSentinels.contains (lowerStr v.strRepr) = false) ∧
    ((⟨"s", "users"⟩ : SchemaTableRow) ∉ (filter_unused_tables [⟨"s", "users"⟩]
        [(("s", "users"), ⟨some ⟨"2024-01-01 10:00:00", false⟩, none, 5, 10, 20⟩)]).1 ↔
      is_enum_table "users" = false ∧
      ((lookupInfo [(("s", "users"), ⟨some ⟨"2024-01-01 10:00:00", false⟩, none, 5, 10, 20⟩)]
          ⟨"s", "users"⟩).last_update = none ∨
        ∃ v, (lookupInfo [(("s", "users"), ⟨some ⟨"2024-01-01 10:00:00", false⟩, none, 5, 10, 20⟩)]
            ⟨"s", "users"⟩).last_update = some v ∧
          (v.isNA = true ∨ nullSentinels.contains (lowerStr v.strRepr) = true))) ∧
    (is_enum_table "users" = false ∧
        is_unused_table (lookupInfo [(("s", "users"),
          ⟨some ⟨"2024-01-01 10:00:00", false⟩, none, 5, 10, 20⟩)] ⟨"s", "users"⟩).last_update = true →
      ∃ e ∈ (filter_unused_tables [⟨"s", "users"⟩]
          [(("s", "users"), ⟨some ⟨"2024-01-01 10:00:00", false⟩, none, 5, 10, 20⟩)]).2,
        e.table = "s" ++ "." ++ "users") :=
  ⟨by decide, unused_filter_keep_iff _ _ _ (by decide)⟩

/-- Claim C5: the unused-table filter is idempotent — re-filtering its own
kept output (with the same table-info mapping) keeps every table and produces
an empty exclusion report. -/
theorem unused_filter_idempotent (tables : List SchemaTableRow)
    (ti : List ((String × String) × TableInfo)) :
    filter_unused_tables (filter_unused_tables tables ti).1 ti =
      ((filter_unused_tables tables ti).1, []) := by
  have hnil : (filter_unused_tables (filter_unused_tables tables ti).1 ti).2 = [] := by
    rw [filter_unused_snd ti, filter_unused_fst ti, List.filter_filter]
    have : tables.filter (fun a =>
        (! is_enum_table a.table_name && is_unused_table (lookupInfo ti a).last_update) &&
          (is_enum_table a.table_name || ! is_unused_table (lookupInfo ti a).last_update)) = [] := by
      rw [List.filter_eq_nil_iff]
      intro a _
      cases he : is_enum_table a.table_name <;>
        cases hu : is_unused_table (lookupInfo ti a).last_update <;> simp [he, hu]
    rw [this, List.map_nil]
  have hfst : (filter_unused_tables (filter_unused_tables tables ti).1 ti).1 =
      (filter_unused_tables tables ti).1 := by
    rw [filter_unused_fst ti, filter_unused_fst ti, List.filter_filter]
    exact List.filter_congr (fun a _ => Bool.and_self _)
  exact Prod.ext hfst hnil

/-! ### Claims about the unused-objects scan -/

/-- Claim C3: in unused-objects mode, a known table is reported unused iff the
lowercased last dot-segment of its name does not occur as a substring of the
code blob assembled from the selected files, the unused-column list is the
prefix of the analogously filtered known columns truncated at 100, and it
never exceeds 100 entries. -/
theorem find_unused_objects_spec (corpus : List (String × String))
    (tables cols exts : List String) (t : String) :
    (t ∈ (find_unused_objects corpus tables cols exts).unused_tables ↔
      t ∈ tables ∧ strContains (lowerStr (lastSeg t)) (all_code_content corpus exts) = false) ∧
    (find_unused_objects corpus tables cols exts).unused_columns =
      (cols.filter (fun c =>
        ! strContains (lowerStr (lastSeg c)) (all_code_content corpus exts))).take 100 ∧
    (find_unused_objects corpus tables cols exts).unused_columns.length ≤ 100 := by
  refine ⟨?_, rfl, ?_⟩
  · simp [find_unused_objects, List.mem_filter]
  · show ((cols.filter _).take 100).length ≤ 100
    rw [List.length_take]
    exact min_le_left _ _

/-- Counterexample for C10 as stated: over a corpus with no file matching the
extension allow-list the code blob is empty, yet a known column whose bare
name is empty (Python `"" in ""` is `True`) is not reported unused, so the
unused-column list is not `all_columns[:100]`. -/
theorem unused_objects_empty_corpus_counterexample :
    (∀ f ∈ [(("README.md" : String), ("x" : String))],
      [".py"].any (fun e => endswith f.1 e) = false) ∧
    (find_unused_objects [("README.md", "x")] ["s.t"] ["s.c."] [".py"]).unused_tables = ["s.t"] ∧
    (find_unused_objects [("README.md", "x")] ["s.t"] ["s.c."] [".py"]).unused_columns = [] ∧
    (["s.c."] : List String).take 100 = ["s.c."] ∧
    (find_unused_objects [("README.md", "x")] ["s.t"] ["s.c."] [".py"]).unused_columns ≠
      (["s.c."] : List String).take 100 := by
  decide

/-- Claim C10 (amended): over a corpus in which no file matches the extension
allow-list, the code blob is empty, every known table with a non-empty
(lowercased) bare name is reported unused, and the unused-column list is the
first 100 known columns whose (lowercased) bare name is non-empty. -/
theorem unused_objects_empty_corpus (corpus : List (String × String))
    (tables cols exts : List String)
    (hsel : ∀ f ∈ corpus, exts.any (fun e => endswith f.1 e) = false) :
    (∀ t ∈ tables, lowerStr (lastSeg t) ≠ "" →
      t ∈ (find_unused_objects corpus tables cols exts).unused_tables) ∧
    (find_unused_objects corpus tables cols exts).unused_columns =
      (cols.filter (fun c => decide (lowerStr (lastSeg c) ≠ ""))).take 100 := by
  have hblob := all_code_content_nil hsel
  constructor
  · intro t ht hne
    simp only [find_unused_objects, List.mem_filter, hblob, strContains_empty]
    refine ⟨ht, ?_⟩
    simp only [Bool.not_eq_eq_eq_not, Bool.not_true, List.isEmpty_eq_false_iff_exists_mem]
    rcases List.exists_mem_of_ne_nil _ ((not_iff_not.mpr toList_eq_nil_iff).mpr hne) with ⟨x, hx⟩
    exact ⟨x, hx⟩
  · show ((cols.filter _).take 100) = _
    congr 1
    apply List.filter_congr
    intro c _
    rw [hblob, strContains_empty]
    cases hc : (lowerStr (lastSeg c)).toList with
    | nil => simp [toList_eq_nil_iff.mp hc]
    | cons x xs =>
      have : lowerStr (lastSeg c) ≠ "" := by
        intro h
        rw [toList_eq_nil_iff.mpr] at hc
        · cases hc
        · exact h
      simp [this]

/-- Witness for C10 (amended) at a concrete corpus with no selectable file. -/
theorem unused_objects_empty_corpus_witness :
    (∀ f ∈ [(("a.md" : String), ("orders data" : String))],
      [".py"].any (fun e => endswith f.1 e) = false) ∧
    ((∀ t ∈ ["s.t"], lowerStr (lastSeg t) ≠ "" →
      t ∈ (find_unused_objects [("a.md", "orders data")] ["s.t"] ["s.c", "s.d."] [".py"]).unused_tables) ∧
    (find_unused_objects [("a.md", "orders data")] ["s.t"] ["s.c", "s.d."] [".py"]).unused_columns =
      ((["s.c", "s.d."] : List String).filter (fun c => decide (lowerStr (lastSeg c) ≠ ""))).take 100) :=
  ⟨by decide, unused_objects_empty_corpus _ _ _ _ (by decide)⟩

/-! ### Claims about the reference scanner -/

/-- Counterexample for C4 as stated: on the corpus consisting of one file
containing `SELECT id FROM orders WHERE id = 5`, scanning for table "orders"
records two matches (the raw word-boundary pattern and the FROM-clause
pattern), not exactly one. -/
theorem scan_orders_counterexample :
    (analyze_table_impact [("app.sql", "SELECT id FROM orders WHERE id = 5")]
      "orders" [".sql"]).total_references = 2 ∧
    ¬ (analyze_table_impact [("app.sql", "SELECT id FROM orders WHERE id = 5")]
      "orders" [".sql"]).total_references = 1 := by
  decide

/-- Claim C4 (amended): on that corpus, scanning for table "orders" yields
exactly one matching file carrying exactly two matches — one for the raw
word-boundary pattern and one for the FROM-clause pattern — both at line 1. -/
theorem scan_orders_matches :
    (analyze_table_impact [("app.sql", "SELECT id FROM orders WHERE id = 5")]
        "orders" [".sql"]).files =
      [{ path := "app.sql",
         matches_list :=
           [{ line := 1, content := "SELECT id FROM orders WHERE id = 5",
              pattern := "\\borders\\b" },
            { line := 1, content := "SELECT id FROM orders WHERE id = 5",
              pattern := "FROM\\s+orders\\b" }],
         count := 2 }] ∧
    (analyze_table_impact [("app.sql", "SELECT id FROM orders WHERE id = 5")]
      "orders" [".sql"]).total_references = 2 := by
  decide

/-- Claim C9: one textual occurrence of the target name can be recorded once
per pattern that matches it, so the match count and `total_references` can
exceed the number of distinct textual occurrences: the single line
`FROM orders` holds one occurrence of "orders" and yields two recorded
matches. -/
theorem pattern_double_count :
    (analyze_table_impact [("a.sql", "FROM orders")] "orders" [".sql"]).total_references = 2 ∧
    ((analyze_table_impact [("a.sql", "FROM orders")] "orders" [".sql"]).files.map
      (fun f => f.count)) = [2] ∧
    occCount "orders" "FROM orders" = 1 ∧
    1 < 2 := by
  decide

/-! ### Claim about the diff engine -/

/-- Claim C6: the diff engine is symmetric up to swapping labels — the tables
reported only-in-A by `diff(A,B)` are exactly the tables reported only-in-B by
`diff(B,A)`, where only-in-A is `tables(A) − tables(B)` and common is the
intersection. -/
theorem compare_tables_symm (A B : SchemaData) :
    (compare_tables A B).only_in_1 = (compare_tables B A).only_in_2 ∧
    (compare_tables A B).only_in_1 = A.tables.toFinset \ B.tables.toFinset ∧
    (compare_tables A B).common = A.tables.toFinset ∩ B.tables.toFinset :=
  ⟨rfl, rfl, rfl⟩

/-! ### Claim about the metadata load -/

/-- Claim C7: when loading metadata for a single schema fails — an exception
raised while connecting or during whichever query its control flow reaches —
`load_schema_metadata` returns the empty snapshot (empty tables, columns and
table-info) instead of propagating the error. -/
theorem load_schema_metadata_failure_empty (db : DbOutcomes)
    (h : query_failed db = true) :
    load_schema_metadata db = emptySchemaData := by
  rcases db with ⟨c, tq, cq, stq⟩
  cases c with
  | error e => rfl
  | ok u =>
    cases tq with
    | error e => rfl
    | ok rows =>
      cases hrows : rows.isEmpty with
      | true =>
        cases stq with
        | error e => simp [load_schema_metadata, hrows]
        | ok ts => simp [query_failed, hrows] at h
      | false =>
        cases cq with
        | error e => simp [load_schema_metadata, hrows]
        | ok colRows => simp [query_failed, hrows] at h

/-- Witness for C7 at a failing connection. -/
theorem load_schema_metadata_failure_empty_witness :
    query_failed ⟨Except.error "boom", Except.ok [], Except.ok [], Except.ok []⟩ = true ∧
    load_schema_metadata ⟨Except.error "boom", Except.ok [], Except.ok [], Except.ok []⟩ =
      emptySchemaData :=
  ⟨rfl, load_schema_metadata_failure_empty _ rfl⟩

/-! ### Claims about the graph builder -/

theorem map_congr_mem {l : List α} {f g : α → β}
    (h : ∀ a ∈ l, f a = g a) : l.map f = l.map g := by
  induction l with
  | nil => rfl
  | cons x xs ih =>
    simp only [List.map_cons]
    rw [h x (List.mem_cons_self _ _), ih (fun a ha => h a (List.mem_cons_of_mem _ ha))]

theorem makeTableNode_id (columns : List ColumnRow)
    (pk_set fk_child_keys : List (String × String × String)) (indexes : List IndexRow)
    (rowcounts : List RowCountRow) (ssp : Bool) (mc : Nat) (cl : Option String)
    (t : SchemaTableRow) :
    (makeTableNode columns pk_set fk_child_keys indexes rowcounts ssp mc cl t).id = nodeId t :=
  rfl

theorem build_graph_nodes_cluster_true (schema_tables : List SchemaTableRow)
    (columns : List ColumnRow) (pks : List PkRow) (fks : List FkRow)
    (indexes : List IndexRow) (rowcounts : List RowCountRow) (ssp : Bool) (mc : Nat) :
    (build_graph schema_tables columns pks fks indexes rowcounts true ssp mc).nodes =
      (sortedKeys (schema_tables.map (·.schema))).flatMap (fun s =>
        (schema_tables.filter (fun r => r.schema == s)).map
          (makeTableNode columns (pks.map fun r => (r.schema, r.table_name, r.column_name))
            (fks.map fun r => (r.child_schema, r.child_table, r.child_column))
            indexes rowcounts ssp mc (some s))) :=
  rfl

theorem build_graph_nodes_cluster_false (schema_tables : List SchemaTableRow)
    (columns : List ColumnRow) (pks : List PkRow) (fks : List FkRow)
    (indexes : List IndexRow) (rowcounts : List RowCountRow) (ssp : Bool) (mc : Nat) :
    (build_graph schema_tables columns pks fks indexes rowcounts false ssp mc).nodes =
      schema_tables.map
        (makeTableNode columns (pks.map fun r => (r.schema, r.table_name, r.column_name))
          (fks.map fun r => (r.child_schema, r.child_table, r.child_column))
          indexes rowcounts ssp mc none) :=
  rfl

/-- Claim C1: for every filtered metadata input whose foreign-key rows only
mention child and parent tables present in the kept-table rows (the caller's
pre-filtering assumption), the node set of the graph built by `build_graph`
is exactly the kept-table set, and both endpoints of every edge are nodes. -/
theorem build_graph_nodes_edges (schema_tables : List SchemaTableRow)
    (columns : List ColumnRow) (pks : List PkRow) (fks : List FkRow)
    (indexes : List IndexRow) (rowcounts : List RowCountRow)
    (cbs ssp : Bool) (mc : Nat)
    (hfk : ∀ fk ∈ fks,
      (∃ r ∈ schema_tables, r.schema = fk.child_schema ∧ r.table_name = fk.child_table) ∧
      (∃ r ∈ schema_tables, r.schema = fk.parent_schema ∧ r.table_name = fk.parent_table)) :
    (∀ x, x ∈ (build_graph schema_tables columns pks fks indexes rowcounts cbs ssp mc).nodes.map
        (fun n => n.id) ↔ x ∈ schema_tables.map nodeId) ∧
    (∀ e ∈ (build_graph schema_tables columns pks fks indexes rowcounts cbs ssp mc).edges,
      e.child ∈ (build_graph schema_tables columns pks fks indexes rowcounts cbs ssp mc).nodes.map
        (fun n => n.id) ∧
      e.parent ∈ (build_graph schema_tables columns pks fks indexes rowcounts cbs ssp mc).nodes.map
        (fun n => n.id)) := by
  have hmem : ∀ x,
      x ∈ (build_graph schema_tables columns pks fks indexes rowcounts cbs ssp mc).nodes.map
        (fun n => n.id) ↔ ∃ r ∈ schema_tables, nodeId r = x := by
    intro x
    cases cbs with
    | false =>
      rw [build_graph_nodes_cluster_false, List.map_map]
      simp only [List.mem_map, Function.comp_apply, makeTableNode_id]
    | true =>
      rw [build_graph_nodes_cluster_true, List.map_flatMap]
      simp only [List.map_map, Function.comp_def, makeTableNode_id, List.mem_flatMap,
        List.mem_map, List.mem_filter, mem_sortedKeys, beq_iff_eq]
      constructor
      · rintro ⟨s, hs, r, ⟨hr, hrs⟩, hx⟩
        exact ⟨r, hr, hx⟩
      · rintro ⟨r, hr, hx⟩
        exact ⟨r.schema, ⟨r, hr, rfl⟩, r, ⟨hr, rfl⟩, hx⟩
  refine ⟨?_, ?_⟩
  · intro x
    rw [hmem x]
    simp [List.mem_map]
  · intro e he
    have : e ∈ fks.map mkFkEdge := he
    rcases List.mem_map.mp this with ⟨fk, hfkmem, rfl⟩
    rcases hfk fk hfkmem with ⟨⟨rc, hrc, hcs, hct⟩, ⟨rp, hrp, hps, hpt⟩⟩
    constructor
    · exact (hmem _).mpr ⟨rc, hrc, by simp [nodeId, mkFkEdge, hcs, hct]⟩
    · exact (hmem _).mpr ⟨rp, hrp, by simp [nodeId, mkFkEdge, hps, hpt]⟩

/-- Witness for C1 at a concrete two-table input with one foreign key. -/
theorem build_graph_nodes_edges_witness :
    (∀ fk ∈ [(⟨"s", "b", "x", "s", "a", "y", "fk1"⟩ : FkRow)],
      (∃ r ∈ [(⟨"s", "a"⟩ : SchemaTableRow), ⟨"s", "b"⟩],
        r.schema = fk.child_schema ∧ r.table_name = fk.child_table) ∧
      (∃ r ∈ [(⟨"s", "a"⟩ : SchemaTableRow), ⟨"s", "b"⟩],
        r.schema = fk.parent_schema ∧ r.table_name = fk.parent_table)) ∧
    ((∀ x, x ∈ (build_graph [⟨"s", "a"⟩, ⟨"s", "b"⟩] [] [] [⟨"s", "b", "x", "s", "a", "y", "fk1"⟩]
        [] [] true true 80).nodes.map (fun n => n.id) ↔
        x ∈ ([(⟨"s", "a"⟩ : SchemaTableRow), ⟨"s", "b"⟩]).map nodeId) ∧
    (∀ e ∈ (build_graph [⟨"s", "a"⟩, ⟨"s", "b"⟩] [] [] [⟨"s", "b", "x", "s", "a", "y", "fk1"⟩]
        [] [] true true 80).edges,
      e.child ∈ (build_graph [⟨"s", "a"⟩, ⟨"s", "b"⟩] [] [] [⟨"s", "b", "x", "s", "a", "y", "fk1"⟩]
        [] [] true true 80).nodes.map (fun n => n.id) ∧
      e.parent ∈ (build_graph [⟨"s", "a"⟩, ⟨"s", "b"⟩] [] [] [⟨"s", "b", "x", "s", "a", "y", "fk1"⟩]
        [] [] true true 80).nodes.map (fun n => n.id))) :=
  ⟨by decide, build_graph_nodes_edges _ _ _ _ _ _ _ _ _ (by decide)⟩

/-- Claim C8: `build_graph` is deterministic — identical inputs give identical
graphs — and when the table rows arrive in the ascending (schema, table) order
produced by the caller's stable sort, the emitted node statements follow
exactly that row order (in both cluster modes) while the emitted edges follow
the foreign-key rows in input order. -/
theorem build_graph_deterministic (schema_tables : List SchemaTableRow)
    (columns : List ColumnRow) (pks : List PkRow) (fks : List FkRow)
    (indexes : List IndexRow) (rowcounts : List RowCountRow)
    (cbs ssp : Bool) (mc : Nat)
    (hs : schema_tables.Pairwise (fun a b => tableRowLe a b = true)) :
    build_graph schema_tables columns pks fks indexes rowcounts cbs ssp mc =
      build_graph schema_tables columns pks fks indexes rowcounts cbs ssp mc ∧
    (build_graph schema_tables columns pks fks indexes rowcounts cbs ssp mc).nodes.map
      (fun n => n.id) = schema_tables.map nodeId ∧
    (build_graph schema_tables columns pks fks indexes rowcounts cbs ssp mc).edges =
      fks.map mkFkEdge := by
  refine ⟨rfl, ?_, rfl⟩
  have hschema : schema_tables.Pairwise (fun a b => strLtB b.schema a.schema = false) := by
    refine hs.imp ?_
    intro a b hab
    simp only [tableRowLe, Bool.or_eq_true, Bool.and_eq_true, beq_iff_eq] at hab
    rcases hab with h | ⟨heq, _⟩
    · exact strLtB_asymm h
    · rw [heq]
      exact strLtB_irrefl _
  cases cbs with
  | false =>
    rw [build_graph_nodes_cluster_false, List.map_map]
    exact map_congr_mem (fun a _ => rfl)
  | true =>
    rw [build_graph_nodes_cluster_true, List.map_flatMap]
    rw [flatMap_congr_mem (g := fun s =>
      (schema_tables.filter (fun r => r.schema == s)).map nodeId)
      (fun s _ => by rw [List.map_map]; exact map_congr_mem (fun a _ => rfl))]
    rw [← List.map_flatMap]
    rw [sorted_flatMap_filter hschema]

/-- Witness for C8 at a concrete sorted three-table input. -/
theorem build_graph_deterministic_witness :
    ([(⟨"a", "t1"⟩ : SchemaTableRow), ⟨"a", "t2"⟩, ⟨"b", "t0"⟩]).Pairwise
      (fun a b => tableRowLe a b = true) ∧
    (build_graph [⟨"a", "t1"⟩, ⟨"a", "t2"⟩, ⟨"b", "t0"⟩] [] [] [] [] [] true false 80 =
      build_graph [⟨"a", "t1"⟩, ⟨"a", "t2"⟩, ⟨"b", "t0"⟩] [] [] [] [] [] true false 80 ∧
    (build_graph [⟨"a", "t1"⟩, ⟨"a", "t2"⟩, ⟨"b", "t0"⟩] [] [] [] [] [] true false 80).nodes.map
      (fun n => n.id) = ([(⟨"a", "t1"⟩ : SchemaTableRow), ⟨"a", "t2"⟩, ⟨"b", "t0"⟩]).map nodeId ∧
    (build_graph [⟨"a", "t1"⟩, ⟨"a", "t2"⟩, ⟨"b", "t0"⟩] [] [] [] [] [] true false 80).edges =
      ([] : List FkRow).map mkFkEdge) :=
  ⟨by decide, build_graph_deterministic _ _ _ _ _ _ _ _ _ (by decide)⟩

end SchemaLens
